import Mathlib

set_option maxRecDepth 8000

/-!
Verification of the REVA lead-generation app's specified core: the
in-memory TTL cache, the bounded request-metrics collector
(`PerformanceMonitor` in `src/shared/schema.ts`), and the People Data Labs
enrichment client (`src/server/pdl.ts`) that consumes the cache.

Machine integers of the source (timestamps, durations, status codes) are
modelled as `Nat`; the floating-point averages/percentages of the source are
modelled as exact rationals `ℚ`.
-/

/-! ## Request metrics collector (src/shared/schema.ts, `PerformanceMonitor`) -/

/-- The `RequestMetrics` record from `src/shared/schema.ts`. Timestamps and
durations are milliseconds as `Nat`. -/
structure RequestMetrics where
  method : String
  path : String
  statusCode : Nat
  duration : Nat
  timestamp : Nat
  userAgent : Option String
  ip : String
  deriving DecidableEq

/-- The `MAX_METRICS` constant of `PerformanceMonitor`. -/
def MAX_METRICS : Nat := 1000

/-- State of the `PerformanceMonitor` class: its `metrics` array. -/
structure PerformanceMonitor where
  metrics : List RequestMetrics
  deriving DecidableEq

/-- Method `addMetric` of `PerformanceMonitor`: push, then
`this.metrics = this.metrics.slice(-this.MAX_METRICS)` when over capacity
(`slice(-n)` keeps the last `n` elements). -/
def PerformanceMonitor.addMetric (self : PerformanceMonitor) (metric : RequestMetrics) :
    PerformanceMonitor :=
  let ms := self.metrics ++ [metric]
  if ms.length > MAX_METRICS then ⟨ms.drop (ms.length - MAX_METRICS)⟩ else ⟨ms⟩

/-- Method `getAverageResponseTime`: `0` when empty, else the
`reduce`-accumulated duration total divided by the count. -/
def PerformanceMonitor.getAverageResponseTime (self : PerformanceMonitor) : ℚ :=
  if self.metrics.length = 0 then 0
  else ((self.metrics.foldl (fun sum metric => sum + metric.duration) 0 : Nat) : ℚ) /
    (↑self.metrics.length : ℚ)

/-- Method `getSlowRequests`: filter by `duration > threshold`
(default threshold 1000). -/
def PerformanceMonitor.getSlowRequests (self : PerformanceMonitor)
    (threshold : Nat := 1000) : List RequestMetrics :=
  self.metrics.filter (fun metric => threshold < metric.duration)

/-- Method `getErrorRate`: `0` when empty, else
`(errorCount / length) * 100` where `errorCount` counts `statusCode >= 400`. -/
def PerformanceMonitor.getErrorRate (self : PerformanceMonitor) : ℚ :=
  if self.metrics.length = 0 then 0
  else (↑(self.metrics.filter (fun metric => 400 ≤ metric.statusCode)).length : ℚ) /
    (↑self.metrics.length : ℚ) * 100

/-- Return shape of `PerformanceMonitor.getMetricsSummary`. -/
structure MetricsSummary where
  totalRequests : Nat
  averageResponseTime : ℚ
  errorRate : ℚ
  slowRequests : Nat
  deriving DecidableEq

/-- Method `getMetricsSummary` of `PerformanceMonitor`. -/
def PerformanceMonitor.getMetricsSummary (self : PerformanceMonitor) : MetricsSummary :=
  { totalRequests := self.metrics.length
    averageResponseTime := self.getAverageResponseTime
    errorRate := self.getErrorRate
    slowRequests := self.getSlowRequests.length }

/-- The collector state reached from the initial empty `PerformanceMonitor`
by a sequence of `addMetric` calls, oldest first. -/
def runMetrics (ms : List RequestMetrics) : PerformanceMonitor :=
  ms.foldl PerformanceMonitor.addMetric ⟨[]⟩

/-- The suffix of the most recent `n` elements (`Array.prototype.slice(-n)`). -/
def lastN (n : Nat) (l : List α) : List α := l.drop (l.length - n)

theorem lastN_append_lastN (n : Nat) (a b : List α) :
    lastN n (lastN n a ++ b) = lastN n (a ++ b) := by
  unfold lastN
  rw [← List.drop_append_of_le_length (Nat.sub_le a.length n), List.drop_drop]
  congr 1
  simp only [List.length_append, List.length_drop]
  omega

theorem lastN_of_le {n : Nat} {l : List α} (h : l.length ≤ n) : lastN n l = l := by
  unfold lastN
  rw [Nat.sub_eq_zero_of_le h, List.drop_zero]

theorem length_lastN (n : Nat) (l : List α) : (lastN n l).length = min n l.length := by
  simp only [lastN, List.length_drop]
  omega

theorem addMetric_metrics (s : List RequestMetrics) (m : RequestMetrics) :
    (PerformanceMonitor.addMetric ⟨s⟩ m).metrics = lastN MAX_METRICS (s ++ [m]) := by
  unfold PerformanceMonitor.addMetric lastN
  dsimp only
  split
  · dsimp only
  · next h => rw [Nat.sub_eq_zero_of_le (Nat.le_of_not_lt h), List.drop_zero]

theorem foldl_addMetric (l : List RequestMetrics) :
    ∀ s : List RequestMetrics, s.length ≤ MAX_METRICS →
      (l.foldl PerformanceMonitor.addMetric ⟨s⟩).metrics = lastN MAX_METRICS (s ++ l) := by
  induction l with
  | nil =>
    intro s hs
    simp only [List.foldl_nil, List.append_nil]
    exact (lastN_of_le hs).symm
  | cons m rest ih =>
    intro s hs
    have hstep : PerformanceMonitor.addMetric ⟨s⟩ m = ⟨lastN MAX_METRICS (s ++ [m])⟩ :=
      addMetric_metrics s m ▸ rfl
    rw [List.foldl_cons, hstep, ih _ (by rw [length_lastN]; omega)]
    rw [lastN_append_lastN]
    simp

theorem runMetrics_metrics (ms : List RequestMetrics) :
    (runMetrics ms).metrics = lastN MAX_METRICS ms := by
  unfold runMetrics
  simpa using foldl_addMetric ms [] (by simp [MAX_METRICS])

/-! ## TTL cache (spec-modelled) -/

/-- Modelled from the spec: `CacheEntry` of the in-memory TTL cache
(`src/server/middleware/cache.ts`, absent from the snapshot; only its caller
`src/server/pdl.ts` is present): `{ value, storedAt, ttlMillis }`, created on
`set`, read-only until overwritten or evicted. -/
structure CacheEntry (V : Type) where
  value : V
  storedAt : Nat
  ttlMillis : Nat
  deriving DecidableEq

/-- Modelled from the spec: the cache is a mapping from string key to a
`CacheEntry`, here a duplicate-free association list. -/
abbrev Cache (V : Type) : Type := List (String × CacheEntry V)

/-- Modelled from the spec: `set(key, value, ttlMillis)` unconditionally
overwrites any existing entry for the key (last-write-wins); `now` is the
write timestamp recorded as `storedAt`. -/
def Cache.set (k : String) (v : V) (ttlMillis now : Nat) (c : Cache V) : Cache V :=
  (k, ⟨v, now, ttlMillis⟩) :: List.filter (fun p => p.1 ≠ k) c

/-- Modelled from the spec: `get(key)` returns the stored value only if
`now - storedAt <= ttlMillis`; otherwise behaves as if absent (lazy expiry);
no side effect on hit or miss. -/
def Cache.get (k : String) (now : Nat) (c : Cache V) : Option V :=
  match List.find? (fun p => p.1 == k) c with
  | some p => if now - p.2.storedAt ≤ p.2.ttlMillis then some p.2.value else none
  | none => none

theorem Cache.get_set {V : Type} (k : String) (v : V) (t T now : Nat) (c : Cache V) :
    Cache.get k now (Cache.set k v t T c) = if now - T ≤ t then some v else none := by
  unfold Cache.get Cache.set
  simp [List.find?_cons]

theorem Cache.get_set_set {V : Type} (k : String) (v1 v2 : V)
    (t1 t2 T1 T2 now : Nat) (c : Cache V) :
    Cache.get k now (Cache.set k v2 t2 T2 (Cache.set k v1 t1 T1 c)) =
      Cache.get k now (Cache.set k v2 t2 T2 c) := by
  rw [Cache.get_set, Cache.get_set]

/-! ## Claim theorems: metrics collector and cache -/

/-- A concrete request metric used to instantiate witnesses. -/
def sampleMetric : RequestMetrics :=
  { method := "GET", path := "/api/health", statusCode := 200, duration := 5
    timestamp := 0, userAgent := none, ip := "127.0.0.1" }

/-- C1: After any sequence of `addMetric` calls the collector retains
exactly the most recent `min(N, 1000)` metrics in submission order; in
particular after `N > 1000` calls `getMetricsSummary().totalRequests = 1000`
and the retained records are the most recent 1000. -/
theorem metrics_fifo_claim (ms : List RequestMetrics) :
    (runMetrics ms).metrics = ms.drop (ms.length - MAX_METRICS) ∧
    (runMetrics ms).metrics.length = min MAX_METRICS ms.length ∧
    (ms.length > 1000 → (runMetrics ms).getMetricsSummary.totalRequests = 1000) := by
  have h := runMetrics_metrics ms
  refine ⟨h, ?_, ?_⟩
  · rw [h, length_lastN]
  · intro hlen
    unfold PerformanceMonitor.getMetricsSummary
    dsimp only
    rw [h, length_lastN]
    simp only [MAX_METRICS]
    omega

/-- Witness for C1 at a concrete overflowing input. -/
theorem metrics_fifo_claim_witness :
    (runMetrics (List.replicate 1001 sampleMetric)).getMetricsSummary.totalRequests = 1000 :=
  (metrics_fifo_claim (List.replicate 1001 sampleMetric)).2.2
    (by simp only [List.length_replicate]; omega)

/-- C2: For every key `k`, value `v`, ttl `t > 0`: after `set(k, v, t)` at
time `T`, `get(k)` at `T'` returns `v` when `T' - T ≤ t` and absent when
`T' - T > t`; a subsequent `set(k, v2, t2)` makes later `get(k)` behave
exactly as a fresh `set(k, v2, t2)` — governed by `t2`, never the earlier
value. -/
theorem cache_ttl_claim {V : Type} (k : String) (v : V) (t T : Nat) (c : Cache V)
    (ht : 0 < t) :
    (∀ T', T' - T ≤ t → Cache.get k T' (Cache.set k v t T c) = some v) ∧
    (∀ T', T' - T > t → Cache.get k T' (Cache.set k v t T c) = none) ∧
    (∀ (v2 : V) (t2 T2 T' : Nat),
      Cache.get k T' (Cache.set k v2 t2 T2 (Cache.set k v t T c)) =
        Cache.get k T' (Cache.set k v2 t2 T2 c)) := by
  refine ⟨fun T' hle => ?_, fun T' hgt => ?_, fun v2 t2 T2 T' => ?_⟩
  · rw [Cache.get_set, if_pos hle]
  · rw [Cache.get_set, if_neg (by omega)]
  · exact Cache.get_set_set k v v2 t t2 T T2 T' c

/-- Witness for C2 at concrete values (the spec's end-to-end scenario shape:
1-hour TTL, reads at `T + t` and `T + t + 1`). -/
theorem cache_ttl_claim_witness :
    Cache.get "pdl:a@example.com" 3600000
      (Cache.set "pdl:a@example.com" (42 : Nat) 3600000 0 []) = some 42 ∧
    Cache.get "pdl:a@example.com" 3600001
      (Cache.set "pdl:a@example.com" (42 : Nat) 3600000 0 []) = none := by
  have h := cache_ttl_claim "pdl:a@example.com" (42 : Nat) 3600000 0 [] (by omega)
  exact ⟨h.1 3600000 (by omega), h.2.1 3600001 (by omega)⟩

/-! ## PDL enrichment client (src/server/pdl.ts) -/

/-- Whitespace class of JS regex `\s` (ECMAScript WhiteSpace and
LineTerminator code points). -/
def isJsWhitespace (c : Char) : Bool :=
  let n := c.toNat
  n = 0x20 || n = 0x09 || n = 0x0a || n = 0x0b || n = 0x0c || n = 0x0d ||
  n = 0xa0 || n = 0x1680 || (0x2000 ≤ n && n ≤ 0x200a) || n = 0x2028 ||
  n = 0x2029 || n = 0x202f || n = 0x205f || n = 0x3000 || n = 0xfeff

/-- Test of the anchored email regex of `enrichPersonWithPDL`
(one or more non-whitespace-non-at, at sign, one or more
non-whitespace-non-at, dot, one or more non-whitespace-non-at): the string
has exactly one at sign, a nonempty whitespace-free local part, and a
nonempty whitespace-free domain with a dot that is neither its first nor its
last character. -/
def emailRegexTest (s : String) : Bool :=
  match s.data.splitOn '@' with
  | [localPart, domain] =>
    !localPart.isEmpty && localPart.all (fun c => !isJsWhitespace c) &&
    !domain.isEmpty && domain.all (fun c => !isJsWhitespace c) &&
    (domain.drop 1).dropLast.contains '.'
  | _ => false

/-- Return shape of `enrichPersonWithPDL`; fields the source leaves
`undefined` default to `none`. -/
structure EnrichResult where
  phone : Option String := none
  fullName : Option String := none
  title : Option String := none
  linkedinUrl : Option String := none
  success : Bool
  error : Option String := none
  deriving DecidableEq

/-- Phone record of the `PDLPersonResponse` interface. -/
structure PDLPhone where
  number : String
  type : Option String
  deriving DecidableEq

/-- Profile record of the `PDLPersonResponse` interface. -/
structure PDLProfile where
  network : String
  url : String
  deriving DecidableEq

/-- Data payload of the `PDLPersonResponse` interface (fields unused by the
extraction logic are omitted). -/
structure PDLData where
  full_name : Option String
  job_title : Option String
  phone_numbers : Option (List PDLPhone)
  linkedin_url : Option String
  profiles : Option (List PDLProfile)
  deriving DecidableEq

/-- Error payload of the `PDLPersonResponse` interface. -/
structure PDLError where
  type : String
  message : String
  deriving DecidableEq

/-- The `PDLPersonResponse` interface of src/server/pdl.ts. -/
structure PDLPersonResponse where
  status : Nat
  data : Option PDLData
  error : Option PDLError
  deriving DecidableEq

/-- Observable outcome of the single `fetch` of `enrichPersonWithPDL`:
an exception (network error or timeout, also a `json()` failure), a non-OK
HTTP response with its status and body text, or an OK response with its
parsed JSON body. -/
inductive FetchOutcome where
  | throws (message : String)
  | httpError (status : Nat) (errorText : String)
  | ok (result : PDLPersonResponse)
  deriving DecidableEq

/-- Ambient state of one `enrichPersonWithPDL` call: the `PDL_API_KEY`
environment variable, the outcome the network would produce, and the current
time used for cache writes and expiry checks. -/
structure PdlEnv where
  apiKey : Option String
  fetch : FetchOutcome
  now : Nat
  deriving DecidableEq

/-- One observable side effect of `enrichPersonWithPDL` on the cache or the
network. -/
inductive Effect where
  | cacheGet
  | fetchCall
  | cacheSet
  deriving DecidableEq

/-- Truthiness of a JS `string | undefined` value: `undefined` and the empty
string are falsy. -/
def jsTruthyS : Option String → Bool
  | none => false
  | some s => s ≠ ""

/-- JS `a || b` for `a : string | undefined` and `b : string`. -/
def jsOrS (a : Option String) (b : String) : String :=
  match a with
  | some s => if s = "" then b else s
  | none => b

/-- Substring containment, modelling JS `String.prototype.includes` over
explicit character lists. -/
def includesSub (needle : List Char) : List Char → Bool
  | [] => needle.isEmpty
  | c :: rest => List.isPrefixOf needle (c :: rest) || includesSub needle rest

/-- Truthiness of JS `t?.toLowerCase().includes(sub)` for optional `t`. -/
def optTypeIncludes (t : Option String) (sub : String) : Bool :=
  match t with
  | some s => includesSub sub.data s.toLower.data
  | none => false

/-- Phone extraction of `enrichPersonWithPDL` (lines 108-115): `undefined`
when `phone_numbers` is absent or empty; otherwise a mobile-typed number
first, then a work-typed one, then the first number, where JS `||` also
skips empty strings. -/
def extractPhone : Option (List PDLPhone) → Option String
  | none => none
  | some [] => none
  | some (first :: rest) =>
    let pns := first :: rest
    let mobilePhone := pns.find? (fun p => optTypeIncludes p.type "mobile")
    let workPhone := pns.find? (fun p => optTypeIncludes p.type "work")
    some (jsOrS (mobilePhone.map PDLPhone.number)
      (jsOrS (workPhone.map PDLPhone.number) first.number))

/-- LinkedIn extraction of `enrichPersonWithPDL` (lines 117-124): a truthy
`linkedin_url` wins; otherwise the url of the first profile whose network
lower-cases to `linkedin`. -/
def extractLinkedin (data : PDLData) : Option String :=
  if jsTruthyS data.linkedin_url then data.linkedin_url
  else match data.profiles with
    | some ps => (ps.find? (fun p => p.network.toLower == "linkedin")).map PDLProfile.url
    | none => none

/-- Fallback chain `result.error?.message || defaultMessage` of the no-match
branch. -/
def noMatchError (e : Option PDLError) : String :=
  jsOrS (e.map PDLError.message) "⚠️ No real match found"

/-- Translation of `enrichPersonWithPDL` (src/server/pdl.ts, lines 35-159):
validate the email, check the API key, consult the cache under
`pdl:<email>`, and on a miss perform the fetch, caching a successful
extraction for one hour and a no-match response for thirty minutes; a thrown
exception and a non-OK HTTP response yield failure results handled by the
`catch` / `!response.ok` paths. Returns the result, the cache after the
call, and the ordered trace of cache/network effects. -/
def enrichPersonWithPDL (email : String) (env : PdlEnv) (c : Cache EnrichResult) :
    EnrichResult × Cache EnrichResult × List Effect :=
  if !emailRegexTest email then
    ({ success := false, error := some "Invalid email format" }, c, [])
  else if !jsTruthyS env.apiKey then
    ({ success := false, error := some "PDL API key not configured" }, c, [])
  else
    let cacheKey := "pdl:" ++ email
    match Cache.get cacheKey env.now c with
    | some cachedResult => (cachedResult, c, [.cacheGet])
    | none =>
      match env.fetch with
      | .throws message =>
        ({ success := false, error := some message }, c, [.cacheGet, .fetchCall])
      | .httpError status errorText =>
        ({ success := false,
           error := some ("PDL API returned " ++ toString status ++ ": " ++ errorText) },
         c, [.cacheGet, .fetchCall])
      | .ok result =>
        match result.status, result.data with
        | 200, some data =>
          let enrichedData : EnrichResult :=
            { phone := extractPhone data.phone_numbers
              fullName := data.full_name
              title := data.job_title
              linkedinUrl := extractLinkedin data
              success := true }
          (enrichedData, Cache.set cacheKey enrichedData (60 * 60 * 1000) env.now c,
           [.cacheGet, .fetchCall, .cacheSet])
        | _, _ =>
          let failureResult : EnrichResult :=
            { success := false, error := some (noMatchError result.error) }
          (failureResult, Cache.set cacheKey failureResult (30 * 60 * 1000) env.now c,
           [.cacheGet, .fetchCall, .cacheSet])

/-- Lead shape consumed by `enrichTopLeads`. -/
structure LeadContact where
  email : String
  contactName : String
  businessName : String
  deriving DecidableEq

/-- Lead with the `enrichment` field added by `enrichTopLeads` (object
spread plus one new field). -/
structure EnrichedLead where
  email : String
  contactName : String
  businessName : String
  enrichment : EnrichResult
  deriving DecidableEq

/-- Translation of `enrichTopLeads` (src/server/pdl.ts, lines 161-177):
`leads.slice(0, topCount)`, then a map adding the enrichment of each lead's
email (`Promise.all` keeps the order of the mapped array); the per-lead
`enrichPersonWithPDL` calls are abstracted by the function `enrich` giving
each email's outcome. -/
def enrichTopLeads (enrich : String → EnrichResult)
    (leads : List LeadContact) (topCount : Nat := 3) : List EnrichedLead :=
  (leads.take topCount).map fun lead =>
    { email := lead.email, contactName := lead.contactName
      businessName := lead.businessName, enrichment := enrich lead.email }

/-! ## Claim theorems: aggregates of the metrics collector -/

theorem foldl_add_duration (l : List RequestMetrics) (n : Nat) :
    l.foldl (fun sum metric => sum + metric.duration) n =
      n + (l.map RequestMetrics.duration).sum := by
  induction l generalizing n with
  | nil => simp
  | cons m rest ih => simp [ih, Nat.add_assoc]

/-- A concrete error-status metric used to instantiate witnesses. -/
def errorMetric : RequestMetrics :=
  { sampleMetric with statusCode := 500 }

/-- C3: `getErrorRate()` is `0` on an empty collector and otherwise the
percentage of retained metrics with `statusCode >= 400`: `100` when all
retained metrics are errors, `0` when none are, and `10` after recording
1200 metrics with statuses `[200]*1100 ++ [500]*100` (computed over only the
retained most-recent-1000 window). -/
theorem errorRate_claim (pm : PerformanceMonitor) (a b : RequestMetrics)
    (ha : a.statusCode = 200) (hb : b.statusCode = 500) :
    (pm.metrics = [] → pm.getErrorRate = 0) ∧
    (pm.metrics ≠ [] →
      pm.getErrorRate =
        ((pm.metrics.filter (fun m => 400 ≤ m.statusCode)).length : ℚ) /
          (pm.metrics.length : ℚ) * 100) ∧
    (pm.metrics ≠ [] → (∀ m ∈ pm.metrics, 400 ≤ m.statusCode) → pm.getErrorRate = 100) ∧
    ((∀ m ∈ pm.metrics, m.statusCode < 400) → pm.getErrorRate = 0) ∧
    ((runMetrics (List.replicate 1100 a ++ List.replicate 100 b)).getMetricsSummary.totalRequests
        = 1000 ∧
      (runMetrics (List.replicate 1100 a ++ List.replicate 100 b)).getErrorRate = 10) := by
  have hwindow : (runMetrics (List.replicate 1100 a ++ List.replicate 100 b)).metrics =
      List.replicate 900 a ++ List.replicate 100 b := by
    rw [runMetrics_metrics]
    unfold lastN
    have h1100 : List.replicate 1100 a = List.replicate 200 a ++ List.replicate 900 a := by
      rw [← List.replicate_add]
    rw [h1100, List.append_assoc]
    simp only [List.length_append, List.length_replicate, MAX_METRICS]
    rw [show (200 + 900 + 100 - 1000 : Nat) = 200 by norm_num]
    exact List.drop_left' (by simp)
  refine ⟨?_, ?_, ?_, ?_, ?_, ?_⟩
  · intro h
    unfold PerformanceMonitor.getErrorRate
    simp [h]
  · intro h
    unfold PerformanceMonitor.getErrorRate
    rw [if_neg (by simpa using List.length_pos.mpr h |>.ne')]
  · intro h hall
    unfold PerformanceMonitor.getErrorRate
    rw [if_neg (by simpa using List.length_pos.mpr h |>.ne')]
    rw [List.filter_eq_self.mpr (by intro m hm; simpa using hall m hm)]
    rw [div_self (by exact_mod_cast (List.length_pos.mpr h).ne')]
    norm_num
  · intro hnone
    unfold PerformanceMonitor.getErrorRate
    by_cases h : pm.metrics.length = 0
    · rw [if_pos h]
    · rw [if_neg h]
      rw [List.filter_eq_nil_iff.mpr (by intro m hm; simpa using Nat.not_le.mpr (hnone m hm))]
      simp
  · unfold PerformanceMonitor.getMetricsSummary
    dsimp only
    rw [hwindow]
    simp
  · unfold PerformanceMonitor.getErrorRate
    rw [hwindow]
    rw [List.filter_append,
      List.filter_replicate_of_neg (by simp [ha]),
      List.filter_replicate_of_pos (by simp [hb])]
    simp only [List.nil_append, List.length_replicate, List.length_append, if_neg]
    norm_num

/-- Witness for C3 at concrete metrics: the 1200-record scenario. -/
theorem errorRate_claim_witness :
    (runMetrics (List.replicate 1100 sampleMetric ++ List.replicate 100 errorMetric)).getErrorRate
      = 10 :=
  (errorRate_claim ⟨[]⟩ sampleMetric errorMetric rfl rfl).2.2.2.2.2

/-- C7: `getAverageResponseTime()` is `0` on an empty collector (not an
error), and otherwise the arithmetic mean of the `duration` fields of the
retained metrics. -/
theorem averageResponseTime_claim (pm : PerformanceMonitor) :
    (pm.metrics = [] → pm.getAverageResponseTime = 0) ∧
    (pm.metrics ≠ [] →
      pm.getAverageResponseTime =
        ((pm.metrics.map RequestMetrics.duration).sum : ℚ) / (pm.metrics.length : ℚ)) := by
  constructor
  · intro h
    unfold PerformanceMonitor.getAverageResponseTime
    simp [h]
  · intro h
    unfold PerformanceMonitor.getAverageResponseTime
    rw [if_neg (by simpa using List.length_pos.mpr h |>.ne'), foldl_add_duration]
    norm_num

/-- Witness for C7: the empty collector and a one-element collector. -/
theorem averageResponseTime_claim_witness :
    PerformanceMonitor.getAverageResponseTime ⟨[]⟩ = 0 ∧
    PerformanceMonitor.getAverageResponseTime ⟨[sampleMetric]⟩ = 5 := by
  refine ⟨(averageResponseTime_claim ⟨[]⟩).1 rfl, ?_⟩
  rw [(averageResponseTime_claim ⟨[sampleMetric]⟩).2 (by simp)]
  norm_num [sampleMetric]

/-- C8: `getSlowRequests(threshold)` returns exactly the retained metrics
with `duration > threshold`, in retained order (a sublist with the same
multiplicities), and `getMetricsSummary().slowRequests` is the count of
`getSlowRequests()` at the default threshold 1000. -/
theorem slowRequests_claim (pm : PerformanceMonitor) (threshold : Nat) :
    (pm.getSlowRequests threshold).Sublist pm.metrics ∧
    (∀ m, m ∈ pm.getSlowRequests threshold ↔ m ∈ pm.metrics ∧ threshold < m.duration) ∧
    (∀ m, (pm.getSlowRequests threshold).count m =
      if threshold < m.duration then pm.metrics.count m else 0) ∧
    pm.getMetricsSummary.slowRequests = (pm.getSlowRequests 1000).length := by
  refine ⟨List.filter_sublist pm.metrics, fun m => ?_, fun m => ?_, rfl⟩
  · unfold PerformanceMonitor.getSlowRequests
    simp [List.mem_filter]
  · unfold PerformanceMonitor.getSlowRequests
    by_cases h : threshold < m.duration
    · rw [if_pos h, List.count_filter (by simpa using h)]
    · rw [if_neg h, List.count_eq_zero]
      intro hmem
      exact h (by simpa using (List.mem_filter.mp hmem).2)

/-! ## Claim theorems: PDL enrichment client -/

/-- Well-formedness of an enrichment outcome: a failure carries an error
message. -/
def EnrichResult.wf (r : EnrichResult) : Prop := r.success = false → r.error.isSome = true

/-- Every value stored in the cache is a well-formed enrichment outcome. -/
def CacheWF (c : Cache EnrichResult) : Prop := ∀ p ∈ c, EnrichResult.wf p.2.value

theorem CacheWF_get {c : Cache EnrichResult} (hc : CacheWF c) {k : String} {now : Nat}
    {v : EnrichResult} (h : Cache.get k now c = some v) : EnrichResult.wf v := by
  unfold Cache.get at h
  cases hfind : List.find? (fun p => p.1 == k) c with
  | none => rw [hfind] at h; exact absurd h (by simp)
  | some p =>
    rw [hfind] at h
    dsimp only at h
    by_cases httl : now - p.2.storedAt ≤ p.2.ttlMillis
    · rw [if_pos httl] at h
      injection h with h2
      rw [← h2]
      exact hc p (List.mem_of_find?_eq_some hfind)
    · rw [if_neg httl] at h
      exact absurd h (by simp)

theorem CacheWF_set {c : Cache EnrichResult} (hc : CacheWF c) {k : String}
    {v : EnrichResult} {t T : Nat} (hv : EnrichResult.wf v) :
    CacheWF (Cache.set k v t T c) := by
  intro p hp
  unfold Cache.set at hp
  rcases List.mem_cons.mp hp with h | h
  · rw [h]; exact hv
  · exact hc p (List.mem_of_mem_filter h)

/-- C6: for every email and every outcome of the external call,
`enrichPersonWithPDL` returns normally with a boolean `success` field;
whenever `success` is false an error message is present, and the cache never
receives an ill-formed outcome (the well-formedness invariant is preserved).
No exception escapes: the translation is a total function. -/
theorem pdl_total_claim (email : String) (env : PdlEnv) (c : Cache EnrichResult)
    (hc : CacheWF c) :
    ((enrichPersonWithPDL email env c).1.success = true ∨
      (enrichPersonWithPDL email env c).1.success = false) ∧
    EnrichResult.wf (enrichPersonWithPDL email env c).1 ∧
    CacheWF (enrichPersonWithPDL email env c).2.1 := by
  refine ⟨Bool.eq_false_or_eq_true _, ?_⟩
  unfold enrichPersonWithPDL
  dsimp only
  split
  · exact ⟨fun _ => rfl, hc⟩
  · split
    · exact ⟨fun _ => rfl, hc⟩
    · split
      · next cachedResult hGet => exact ⟨CacheWF_get hc hGet, hc⟩
      · split
        · exact ⟨fun _ => rfl, hc⟩
        · exact ⟨fun _ => rfl, hc⟩
        · split
          · refine ⟨by intro h; simp at h, CacheWF_set hc (by intro h; simp at h)⟩
          · exact ⟨fun _ => rfl, CacheWF_set hc (fun _ => rfl)⟩

/-- Environment whose fetch attempt would fail; unreachable for the
invalid-email path. -/
def envIdle : PdlEnv := { apiKey := none, fetch := .throws "network unreachable", now := 0 }

/-- Witness for C6 at a concrete failing call on the empty cache. -/
theorem pdl_total_claim_witness :
    EnrichResult.wf (enrichPersonWithPDL "eve@example.org" envIdle []).1 ∧
    CacheWF (enrichPersonWithPDL "eve@example.org" envIdle []).2.1 :=
  (pdl_total_claim "eve@example.org" envIdle [] (by intro p hp; exact absurd hp (by simp))).2

/-- C10: on an email rejected by the anchored regex,
`enrichPersonWithPDL` returns `success: false` with error message
`Invalid email format` immediately: the cache is returned unchanged and the
effect trace is empty — no cache read, no cache write, no network call. -/
theorem invalid_email_claim (email : String) (env : PdlEnv) (c : Cache EnrichResult)
    (h : emailRegexTest email = false) :
    enrichPersonWithPDL email env c =
      ({ success := false, error := some "Invalid email format" }, c, []) := by
  unfold enrichPersonWithPDL
  rw [h]
  simp

/-- Witness for C10 at a concrete malformed email. -/
theorem invalid_email_claim_witness :
    enrichPersonWithPDL "not-an-email" envIdle [] =
      ({ success := false, error := some "Invalid email format" }, [], []) :=
  invalid_email_claim "not-an-email" envIdle [] (by decide)

/-- C9: `enrichTopLeads` returns exactly the first `min(topCount, length)`
leads in their original order, fields unchanged, each with one added
`enrichment` field holding the outcome for that lead's email; leads beyond
the first `topCount` do not appear. -/
theorem enrichTopLeads_claim (enrich : String → EnrichResult)
    (leads : List LeadContact) (topCount : Nat) :
    (enrichTopLeads enrich leads topCount).length = min topCount leads.length ∧
    ∀ i, i < topCount →
      (enrichTopLeads enrich leads topCount)[i]? =
        leads[i]?.map (fun lead =>
          { email := lead.email, contactName := lead.contactName
            businessName := lead.businessName, enrichment := enrich lead.email }) := by
  constructor
  · simp [enrichTopLeads]
  · intro i hi
    unfold enrichTopLeads
    rw [List.getElem?_map, List.getElem?_take_of_lt hi]

/-- Lead fixture for witnesses. -/
def leadA : LeadContact :=
  { email := "ann@shop.io", contactName := "Ann", businessName := "Ann Shop" }

/-- Lead fixture for witnesses. -/
def leadB : LeadContact :=
  { email := "ben@cafe.io", contactName := "Ben", businessName := "Ben Cafe" }

/-- Constant enrichment outcome for witnesses. -/
def constEnrich : String → EnrichResult :=
  fun _ => { success := false, error := some "PDL API key not configured" }

/-- Witness for C9: two leads, `topCount = 3`. -/
theorem enrichTopLeads_claim_witness :
    (enrichTopLeads constEnrich [leadA, leadB] 3).length = min 3 [leadA, leadB].length ∧
    (enrichTopLeads constEnrich [leadA, leadB] 3)[0]? =
      [leadA, leadB][0]?.map (fun lead =>
        { email := lead.email, contactName := lead.contactName
          businessName := lead.businessName, enrichment := constEnrich lead.email }) :=
  ⟨(enrichTopLeads_claim constEnrich [leadA, leadB] 3).1,
    (enrichTopLeads_claim constEnrich [leadA, leadB] 3).2 0 (by omega)⟩

/-! Branch reduction lemmas for the cache-miss path of `enrichPersonWithPDL`. -/

theorem enrich_throws (email : String) (env : PdlEnv) (c : Cache EnrichResult)
    (hv : emailRegexTest email = true) (hk : jsTruthyS env.apiKey = true)
    (hmiss : Cache.get ("pdl:" ++ email) env.now c = none)
    {message : String} (hf : env.fetch = .throws message) :
    enrichPersonWithPDL email env c =
      ({ success := false, error := some message }, c, [.cacheGet, .fetchCall]) := by
  unfold enrichPersonWithPDL
  dsimp only
  rw [hv, hk, hmiss, hf]
  simp

theorem enrich_httpError (email : String) (env : PdlEnv) (c : Cache EnrichResult)
    (hv : emailRegexTest email = true) (hk : jsTruthyS env.apiKey = true)
    (hmiss : Cache.get ("pdl:" ++ email) env.now c = none)
    {status : Nat} {errorText : String} (hf : env.fetch = .httpError status errorText) :
    enrichPersonWithPDL email env c =
      ({ success := false,
         error := some ("PDL API returned " ++ toString status ++ ": " ++ errorText) },
       c, [.cacheGet, .fetchCall]) := by
  unfold enrichPersonWithPDL
  dsimp only
  rw [hv, hk, hmiss, hf]
  simp

theorem enrich_ok_match (email : String) (env : PdlEnv) (c : Cache EnrichResult)
    (hv : emailRegexTest email = true) (hk : jsTruthyS env.apiKey = true)
    (hmiss : Cache.get ("pdl:" ++ email) env.now c = none)
    {result : PDLPersonResponse} {data : PDLData} (hf : env.fetch = .ok result)
    (hs : result.status = 200) (hd : result.data = some data) :
    enrichPersonWithPDL email env c =
      ({ phone := extractPhone data.phone_numbers, fullName := data.full_name
         title := data.job_title, linkedinUrl := extractLinkedin data, success := true },
       Cache.set ("pdl:" ++ email)
         { phone := extractPhone data.phone_numbers, fullName := data.full_name
           title := data.job_title, linkedinUrl := extractLinkedin data, success := true }
         3600000 env.now c,
       [.cacheGet, .fetchCall, .cacheSet]) := by
  unfold enrichPersonWithPDL
  dsimp only
  rw [hv, hk, hmiss, hf]
  dsimp only
  rw [hs, hd]
  simp

theorem enrich_ok_nomatch (email : String) (env : PdlEnv) (c : Cache EnrichResult)
    (hv : emailRegexTest email = true) (hk : jsTruthyS env.apiKey = true)
    (hmiss : Cache.get ("pdl:" ++ email) env.now c = none)
    {result : PDLPersonResponse} (hf : env.fetch = .ok result)
    (hnm : result.status ≠ 200 ∨ result.data = none) :
    enrichPersonWithPDL email env c =
      ({ success := false, error := some (noMatchError result.error) },
       Cache.set ("pdl:" ++ email)
         { success := false, error := some (noMatchError result.error) }
         1800000 env.now c,
       [.cacheGet, .fetchCall, .cacheSet]) := by
  unfold enrichPersonWithPDL
  dsimp only
  rw [hv, hk, hmiss, hf]
  dsimp only
  rcases hnm with hs | hd
  · split
    all_goals simp_all
  · split
    all_goals simp_all

/-- Environment fixture: configured key, HTTP 500 from the API. -/
def env500 : PdlEnv :=
  { apiKey := some "test-key", fetch := .httpError 500 "Internal Server Error", now := 0 }

/-- Environment fixture: configured key, fetch raises a timeout exception. -/
def envTimeout : PdlEnv :=
  { apiKey := some "test-key", fetch := .throws "Connect Timeout Error", now := 0 }

/-- Environment fixture: configured key, HTTP 403 from the API. -/
def envHttp403 : PdlEnv :=
  { apiKey := some "test-key", fetch := .httpError 403 "Forbidden", now := 3 }

/-- PDL data fixture for a successful match. -/
def pdlSampleData : PDLData :=
  { full_name := some "Jane Roe", job_title := some "CTO"
    phone_numbers := some [{ number := "555-0100", type := some "mobile" }]
    linkedin_url := some "https://linkedin.example/in/janeroe", profiles := none }

/-- Environment fixture: OK response with a status-200 match. -/
def envOkMatch : PdlEnv :=
  { apiKey := some "test-key"
    fetch := .ok { status := 200, data := some pdlSampleData, error := none }, now := 7 }

/-- Environment fixture: OK response whose body reports no match. -/
def envNoMatch : PdlEnv :=
  { apiKey := some "test-key"
    fetch := .ok { status := 404, data := none
                   error := some { type := "not_found", message := "No records were found" } }
    now := 7 }

/-- C4 counterexample: an enrichment outcome (an HTTP-error failure) is
produced and returned, yet nothing is stored in the cache — no `cacheSet`
effect occurs — refuting that each enrichment outcome is stored. -/
theorem pdl_cache_ttl_cex :
    (enrichPersonWithPDL "x@y.zz" env500 []).1.success = false ∧
    (enrichPersonWithPDL "x@y.zz" env500 []).2.1 = [] ∧
    (enrichPersonWithPDL "x@y.zz" env500 []).2.2 = [.cacheGet, .fetchCall] := by
  decide

/-- C4 (amended): on a cache miss with a valid email and configured key,
`enrichPersonWithPDL` stores the successful outcome under `pdl:<email>` with
TTL 3600000 ms (1 hour) and the no-match outcome with TTL 1800000 ms
(30 minutes) — successes cached exactly 2x longer — while exception and
HTTP-error outcomes are returned without writing to the cache. -/
theorem pdl_cache_ttl_claim (email : String) (env : PdlEnv) (c : Cache EnrichResult)
    (hv : emailRegexTest email = true) (hk : jsTruthyS env.apiKey = true)
    (hmiss : Cache.get ("pdl:" ++ email) env.now c = none) :
    (∀ result data, env.fetch = .ok result → result.status = 200 →
      result.data = some data →
      (enrichPersonWithPDL email env c).2.1 =
        Cache.set ("pdl:" ++ email) (enrichPersonWithPDL email env c).1
          3600000 env.now c) ∧
    (∀ result, env.fetch = .ok result → result.status ≠ 200 ∨ result.data = none →
      (enrichPersonWithPDL email env c).2.1 =
        Cache.set ("pdl:" ++ email) (enrichPersonWithPDL email env c).1
          1800000 env.now c) ∧
    (∀ message, env.fetch = .throws message →
      (enrichPersonWithPDL email env c).2.1 = c) ∧
    (∀ status errorText, env.fetch = .httpError status errorText →
      (enrichPersonWithPDL email env c).2.1 = c) ∧
    (3600000 : Nat) = 2 * 1800000 := by
  refine ⟨?_, ?_, ?_, ?_, by norm_num⟩
  · intro result data hf hs hd
    rw [enrich_ok_match email env c hv hk hmiss hf hs hd]
  · intro result hf hnm
    rw [enrich_ok_nomatch email env c hv hk hmiss hf hnm]
  · intro message hf
    rw [enrich_throws email env c hv hk hmiss hf]
  · intro status errorText hf
    rw [enrich_httpError email env c hv hk hmiss hf]

/-- Witness for C4 (amended): the success and no-match fixtures on the empty
cache. -/
theorem pdl_cache_ttl_claim_witness :
    (enrichPersonWithPDL "jane@acme.com" envOkMatch []).2.1 =
      Cache.set ("pdl:" ++ "jane@acme.com")
        (enrichPersonWithPDL "jane@acme.com" envOkMatch []).1 3600000 envOkMatch.now [] ∧
    (enrichPersonWithPDL "jane@acme.com" envNoMatch []).2.1 =
      Cache.set ("pdl:" ++ "jane@acme.com")
        (enrichPersonWithPDL "jane@acme.com" envNoMatch []).1 1800000 envNoMatch.now [] := by
  constructor
  · exact (pdl_cache_ttl_claim "jane@acme.com" envOkMatch [] (by decide) (by decide)
      (by decide)).1 { status := 200, data := some pdlSampleData, error := none }
      pdlSampleData rfl rfl rfl
  · exact (pdl_cache_ttl_claim "jane@acme.com" envNoMatch [] (by decide) (by decide)
      (by decide)).2.1
      { status := 404, data := none
        error := some { type := "not_found", message := "No records were found" } }
      rfl (Or.inl (by decide))

/-- C5 counterexample: a timeout exception is a failure outcome of the
external call, yet it is returned without being written to the cache — the
cache stays empty and no `cacheSet` effect occurs. -/
theorem pdl_failure_outcomes_cex :
    (enrichPersonWithPDL "bob@corp.example" envTimeout []).1.success = false ∧
    (enrichPersonWithPDL "bob@corp.example" envTimeout []).2.1 = [] ∧
    Effect.cacheSet ∉ (enrichPersonWithPDL "bob@corp.example" envTimeout []).2.2 := by
  decide

/-- C5 (amended): on a cache miss with a valid email and configured key,
only the no-match failure outcome is written to the cache (with the short
TTL 1800000 ms) before being returned; a thrown exception (timeout, network
error) and a non-OK HTTP response are returned as failure outcomes without
any cache write. -/
theorem pdl_failure_outcomes_claim (email : String) (env : PdlEnv) (c : Cache EnrichResult)
    (hv : emailRegexTest email = true) (hk : jsTruthyS env.apiKey = true)
    (hmiss : Cache.get ("pdl:" ++ email) env.now c = none) :
    (∀ message, env.fetch = .throws message →
      (enrichPersonWithPDL email env c).1 = { success := false, error := some message } ∧
      (enrichPersonWithPDL email env c).2.1 = c ∧
      Effect.cacheSet ∉ (enrichPersonWithPDL email env c).2.2) ∧
    (∀ status errorText, env.fetch = .httpError status errorText →
      (enrichPersonWithPDL email env c).1 =
        { success := false,
          error := some ("PDL API returned " ++ toString status ++ ": " ++ errorText) } ∧
      (enrichPersonWithPDL email env c).2.1 = c ∧
      Effect.cacheSet ∉ (enrichPersonWithPDL email env c).2.2) ∧
    (∀ result, env.fetch = .ok result → result.status ≠ 200 ∨ result.data = none →
      (enrichPersonWithPDL email env c).1.success = false ∧
      (enrichPersonWithPDL email env c).2.1 =
        Cache.set ("pdl:" ++ email) (enrichPersonWithPDL email env c).1
          1800000 env.now c ∧
      Effect.cacheSet ∈ (enrichPersonWithPDL email env c).2.2) := by
  refine ⟨?_, ?_, ?_⟩
  · intro message hf
    rw [enrich_throws email env c hv hk hmiss hf]
    exact ⟨rfl, rfl, by simp⟩
  · intro status errorText hf
    rw [enrich_httpError email env c hv hk hmiss hf]
    exact ⟨rfl, rfl, by simp⟩
  · intro result hf hnm
    rw [enrich_ok_nomatch email env c hv hk hmiss hf hnm]
    exact ⟨rfl, rfl, by simp⟩

/-- Witness for C5 (amended): an HTTP 403 failure on the empty cache. -/
theorem pdl_failure_outcomes_claim_witness :
    (enrichPersonWithPDL "carl@firm.org" envHttp403 []).1 =
      { success := false,
        error := some ("PDL API returned " ++ toString (403 : Nat) ++ ": " ++ "Forbidden") } ∧
    (enrichPersonWithPDL "carl@firm.org" envHttp403 []).2.1 = [] ∧
    Effect.cacheSet ∉ (enrichPersonWithPDL "carl@firm.org" envHttp403 []).2.2 :=
  (pdl_failure_outcomes_claim "carl@firm.org" envHttp403 [] (by decide) (by decide)
    (by decide)).2.1 403 "Forbidden" rfl
